import Mathlib

/-!
# Verification of the POCO reactor-pool acceptor and WebSocket layer

Shallow embedding of `Net/include/Poco/Net/ParallelSocketAcceptor.h` and of
the WebSocket handshake/frame codec declared in `Net/include/Poco/Net/WebSocket.h`.
Sockets are identified by natural numbers; machine integers are modelled as
`Nat` with explicit reduction modulo `2 ^ 32` where 32-bit overflow matters.
-/

namespace Poco

/-- A socket identity (the source keys reactor registration by socket). -/
abbrev Socket := Nat

/-- One `ParallelSocketReactor` slot of the pool: its thread-name string and the
set of sockets currently registered with it for polling
(`ParallelSocketReactor` inherits the registration table of `SocketReactor`). -/
structure ParallelReactor where
  threadName : String
  registered : List Socket
deriving DecidableEq

/-- `SocketReactor::has(socket)`: whether the socket is registered with this reactor. -/
def ParallelReactor.has (r : ParallelReactor) (s : Socket) : Bool :=
  r.registered.contains s

/-- The mutable state of a `ParallelSocketAcceptor` that slot selection touches:
the reactor pool `_reactors` and the round-robin cursor `_next`. -/
structure AcceptorState where
  reactors : List ParallelReactor
  next : Nat
deriving DecidableEq

/-- `ParallelSocketAcceptor::reactor(const Socket&)`: iterate over `_reactors`
front to back and return (the index of) the first reactor the socket is already
registered with, otherwise `none` (the null pointer). -/
def findReactor : List ParallelReactor → Socket → Option Nat
  | [], _ => none
  | r :: rs, s => if r.has s then some 0 else (findReactor rs s).map (· + 1)

/-- `ParallelSocketAcceptor::createServiceHandler`: if the socket is already
registered with a pool reactor, bind the handler to that reactor and leave
`_next` alone; otherwise use `_reactors[_next]`, post-increment `_next` and
wrap it to `0` when it reaches `_reactors.size()`. Returns the index of the
chosen reactor together with the updated acceptor state. -/
def createServiceHandler (st : AcceptorState) (sock : Socket) : Nat × AcceptorState :=
  match findReactor st.reactors sock with
  | some i => (i, st)
  | none =>
    let next := st.next
    let next1 := st.next + 1
    let next2 := if next1 = st.reactors.length then 0 else next1
    (next, ⟨st.reactors, next2⟩)

/-- The reactor identities that `wakeUp` can target: the acceptor's own
(`_pReactor`) reactor or a pool worker by index. -/
inductive ReactorId
  | primary
  | worker (i : Nat)
deriving DecidableEq

/-- Observable actions of `onAccept`/`createServiceHandler`, in program order. -/
inductive Event
  | acceptConn (sock : Socket)
  | wakeUp (r : ReactorId)
  | newServiceHandler (sock : Socket) (r : ReactorId)
deriving DecidableEq

/-- `ParallelSocketAcceptor::onAccept`: accept exactly one connection from the
listening socket, wake `_pReactor`, then run `createServiceHandler`, which
wakes the chosen worker reactor and only then constructs the `ServiceHandler`
bound to it. The accepted socket is the argument; the trace lists the actions
in the order the source performs them. -/
def onAccept (st : AcceptorState) (sock : Socket) : AcceptorState × List Event :=
  let res := createServiceHandler st sock
  (res.2,
    [Event.acceptConn sock, Event.wakeUp ReactorId.primary,
     Event.wakeUp (ReactorId.worker res.1), Event.newServiceHandler sock (ReactorId.worker res.1)])

/-- Errors of the acceptor layer: `poco_assert` raises a (fatal) assertion
violation. -/
inductive PocoError
  | assertionViolation
deriving DecidableEq

/-- The reactor created by `init` for slot `i`: thread name `_threadName + "#" + i`,
no sockets registered yet. -/
def mkParallelReactor (threadName : String) (i : Nat) : ParallelReactor :=
  ⟨threadName ++ "#" ++ toString i, []⟩

/-- `ParallelSocketAcceptor::init`: `poco_assert(_threads > 0)`, then push
`_threads` freshly constructed `ParallelReactor`s. -/
def init (threadName : String) (threads : Nat) : Except PocoError (List ParallelReactor) :=
  if threads > 0 then
    .ok ((List.range threads).map (mkParallelReactor threadName))
  else
    .error .assertionViolation

/-- The constructor: `_next(0)` and `init()`. -/
def newAcceptor (threadName : String) (threads : Nat) : Except PocoError AcceptorState :=
  (init threadName threads).map (fun rs => ⟨rs, 0⟩)

/-- A sequence of accepted connections run through `createServiceHandler`:
returns the final state and the list of chosen reactor indices, in order. -/
def acceptRun : AcceptorState → List Socket → AcceptorState × List Nat
  | st, [] => (st, [])
  | st, s :: rest =>
    let res := createServiceHandler st s
    let rec' := acceptRun res.2 rest
    (rec'.1, res.1 :: rec'.2)

end Poco

namespace Poco

/-! ### Helper lemmas for the acceptor -/

theorem findReactor_some (R : List ParallelReactor) (s : Socket) (i : Nat)
    (h : findReactor R s = some i) :
    ∃ r, R.get? i = some r ∧ r.has s = true := by
  induction R generalizing i with
  | nil => simp [findReactor] at h
  | cons r rs ih =>
    by_cases hr : r.has s
    · simp [findReactor, hr] at h
      exact ⟨r, by simp [← h], hr⟩
    · simp [findReactor, hr] at h
      obtain ⟨j, hj, hij⟩ := h
      obtain ⟨r', hr', hhas⟩ := ih j hj
      exact ⟨r', by simpa [← hij] using hr', hhas⟩

theorem createServiceHandler_noAffinity (st : AcceptorState) (sock : Socket)
    (hinv : st.next < st.reactors.length)
    (h : findReactor st.reactors sock = none) :
    createServiceHandler st sock =
      (st.next, ⟨st.reactors, (st.next + 1) % st.reactors.length⟩) := by
  simp only [createServiceHandler, h]
  congr 1
  by_cases hwrap : st.next + 1 = st.reactors.length
  · simp [hwrap, Nat.mod_self]
  · have hlt : st.next + 1 < st.reactors.length := by omega
    simp [hwrap, Nat.mod_eq_of_lt hlt]

theorem acceptRun_noAffinity (N : Nat) (hN : 0 < N) :
    ∀ (socks : List Socket) (R : List ParallelReactor) (c : Nat),
      R.length = N → c < N → (∀ s ∈ socks, findReactor R s = none) →
      acceptRun ⟨R, c⟩ socks =
        (⟨R, (c + socks.length) % N⟩, (List.range socks.length).map (fun k => (c + k) % N)) := by
  intro socks
  induction socks with
  | nil =>
    intro R c hR hc _
    simp [acceptRun, Nat.mod_eq_of_lt hc]
  | cons s rest ih =>
    intro R c hR hc hna
    have hstep := createServiceHandler_noAffinity ⟨R, c⟩ s (by simpa [hR] using hc)
      (hna s (by simp))
    have hc' : (c + 1) % N < N := Nat.mod_lt _ hN
    have hrest := ih R ((c + 1) % N) hR hc' (fun s' hs' => hna s' (by simp [hs']))
    simp only [acceptRun, hstep, hR, hrest, Prod.mk.injEq, AcceptorState.mk.injEq,
      List.length_cons]
    refine ⟨⟨trivial, ?_⟩, ?_⟩
    · rw [Nat.mod_add_mod]
      congr 1
      omega
    · rw [List.range_succ_eq_map, List.map_cons, List.map_map]
      have hc0 : (c + 0) % N = c := by simpa using Nat.mod_eq_of_lt hc
      have hfun : (fun k => ((c + 1) % N + k) % N) = ((fun k => (c + k) % N) ∘ Nat.succ) := by
        funext k
        rw [Function.comp_apply, Nat.mod_add_mod]
        congr 1
        omega
      rw [hfun, hc0]

theorem count_range_mod (N : Nat) (hN : 0 < N) (i : Nat) (hi : i < N) :
    ∀ M, ((List.range M).map (fun k => k % N)).count i
      = M / N + (if i < M % N then 1 else 0) := by
  intro M
  induction M with
  | zero => simp
  | succ M ih =>
    rw [List.range_succ, List.map_append, List.count_append, ih]
    have hr : M % N < N := Nat.mod_lt _ hN
    have hqr : N * (M / N) + M % N = M := Nat.div_add_mod M N
    have hcnt : (List.map (fun k => k % N) [M]).count i = if M % N = i then 1 else 0 := by
      simp [List.count_cons]
    rw [hcnt]
    by_cases hw : M % N + 1 = N
    · have hmul : N * (M / N + 1) = N * (M / N) + N := by ring
      have hM1 : M + 1 = N * (M / N + 1) := by omega
      have hd : N * (M / N + 1) / N = M / N + 1 := Nat.mul_div_cancel_left _ hN
      have hm : N * (M / N + 1) % N = 0 := Nat.mul_mod_right N _
      rw [hM1, hd, hm]
      split_ifs <;> omega
    · have hM1 : M + 1 = (M % N + 1) + N * (M / N) := by omega
      have hd2 : (M % N + 1) / N = 0 := Nat.div_eq_of_lt (by omega)
      have hm2 : (M % N + 1) % N = M % N + 1 := Nat.mod_eq_of_lt (by omega)
      rw [hM1, Nat.add_mul_div_left _ _ hN, Nat.add_mul_mod_self_left, hd2, hm2]
      split_ifs <;> omega

theorem ceil_div_of_pos_mod (M N : Nat) (hN : 0 < N) (hr : 0 < M % N) :
    (M + N - 1) / N = M / N + 1 := by
  have hqr : N * (M / N) + M % N = M := Nat.div_add_mod M N
  have hmul : N * (M / N + 1) = N * (M / N) + N := by ring
  have hrlt : M % N < N := Nat.mod_lt _ hN
  have hM : M + N - 1 = (M % N - 1) + N * (M / N + 1) := by omega
  have h0 : (M % N - 1) / N = 0 := Nat.div_eq_of_lt (by omega)
  rw [hM, Nat.add_mul_div_left _ _ hN, h0]
  omega

theorem newAcceptor_ok (tn : String) (N : Nat) (hN : 0 < N) :
    newAcceptor tn N = Except.ok ⟨(List.range N).map (mkParallelReactor tn), 0⟩ := by
  simp [newAcceptor, init, hN, Except.map]

/-- **C1**: starting from a freshly constructed acceptor with a pool of `N ≥ 1`
reactors, running `createServiceHandler` on `M` accepted sockets none of which
is registered with a pool reactor assigns the `k`-th socket (0-indexed) to
reactor index `k % N`, and each reactor index receives either `⌊M/N⌋` or
`⌈M/N⌉` of the sockets. -/
theorem roundRobin_distribution (tn : String) (N : Nat) (hN : 1 ≤ N)
    (st0 : AcceptorState) (h0 : newAcceptor tn N = Except.ok st0)
    (socks : List Socket) (hna : ∀ s ∈ socks, findReactor st0.reactors s = none) :
    (acceptRun st0 socks).2 = (List.range socks.length).map (fun k => k % N) ∧
    ∀ i, i < N →
      (acceptRun st0 socks).2.count i = socks.length / N ∨
      (acceptRun st0 socks).2.count i = (socks.length + N - 1) / N := by
  have hN' : 0 < N := hN
  have hst0 : st0 = ⟨(List.range N).map (mkParallelReactor tn), 0⟩ := by
    rw [newAcceptor_ok tn N hN'] at h0
    injection h0 with h
    exact h.symm
  have hlen : ((List.range N).map (mkParallelReactor tn)).length = N := by
    simp
  have hrun := acceptRun_noAffinity N hN' socks ((List.range N).map (mkParallelReactor tn)) 0
    hlen hN' (by rw [hst0] at hna; exact hna)
  have h2 : (acceptRun st0 socks).2 = (List.range socks.length).map (fun k => k % N) := by
    rw [hst0, hrun]
    simp
  refine ⟨h2, ?_⟩
  intro i hi
  rw [h2, count_range_mod N hN' i hi socks.length]
  by_cases hcase : i < socks.length % N
  · right
    rw [ceil_div_of_pos_mod socks.length N hN' (by omega)]
    simp [hcase]
  · left
    simp [hcase]

/-- **C2**: when the accepted socket is already registered with a pool reactor,
`createServiceHandler` binds the new service handler to that reactor (the one
`reactor(socket)` finds, which has the socket registered) and leaves the whole
acceptor state — in particular the round-robin cursor `_next` — unchanged. -/
theorem createServiceHandler_affinity (st : AcceptorState) (sock : Socket) (i : Nat)
    (h : findReactor st.reactors sock = some i) :
    (createServiceHandler st sock).1 = i ∧
    (createServiceHandler st sock).2 = st ∧
    ∃ r, st.reactors.get? i = some r ∧ r.has sock = true := by
  refine ⟨?_, ?_, findReactor_some st.reactors sock i h⟩ <;>
    simp [createServiceHandler, h]

/-- **C3**: the cursor invariant. `_next` is `0` after construction; one call
to `createServiceHandler` on a pool of size `N ≥ 1` keeps `_next` in `[0, N)`;
and in the no-affinity case the new cursor is `(old + 1) % N`. -/
theorem cursor_invariant (tn : String) (N : Nat) (hN : 1 ≤ N)
    (st : AcceptorState) (sock : Socket)
    (hlen : st.reactors.length = N) (hinv : st.next < N) :
    (∀ st0, newAcceptor tn N = Except.ok st0 → st0.next = 0) ∧
    (createServiceHandler st sock).2.next < N ∧
    (findReactor st.reactors sock = none →
      (createServiceHandler st sock).2.next = (st.next + 1) % N) := by
  have hN' : 0 < N := hN
  refine ⟨?_, ?_, ?_⟩
  · intro st0 h0
    rw [newAcceptor_ok tn N hN'] at h0
    injection h0 with h
    rw [← h]
  · cases hfind : findReactor st.reactors sock with
    | some i => simpa [createServiceHandler, hfind] using hinv
    | none =>
      rw [createServiceHandler_noAffinity st sock (by omega) hfind, hlen]
      exact Nat.mod_lt _ hN'
  · intro hfind
    rw [createServiceHandler_noAffinity st sock (by omega) hfind, hlen]

/-- **C4**: `init` fails with the fatal assertion/configuration error when the
pool size (`threads`) is `0`, and for every `N ≥ 1` it succeeds, creating
exactly `N` `ParallelReactor` slots. -/
theorem init_pool_size (tn : String) :
    init tn 0 = Except.error PocoError.assertionViolation ∧
    ∀ N, 1 ≤ N → ∃ rs, init tn N = Except.ok rs ∧ rs.length = N := by
  refine ⟨rfl, ?_⟩
  intro N hN
  have hN' : 0 < N := hN
  exact ⟨(List.range N).map (mkParallelReactor tn), by simp [init, hN'], by simp⟩

/-- Recognizer for `acceptConn` events. -/
def Event.isAccept : Event → Bool
  | Event.acceptConn _ => true
  | _ => false

/-- **C5**: `onAccept` produces the exact trace: one `accept()` yielding one
connected socket, then the wake of `_pReactor`, then the wake of the chosen
worker reactor, and only then the construction of the service handler bound to
that worker. In particular the trace contains exactly one accept event and
every handler-creation event is preceded by a wake of the reactor it binds to. -/
theorem onAccept_wake_before_handler (st : AcceptorState) (sock : Socket) :
    (onAccept st sock).2 =
      [Event.acceptConn sock, Event.wakeUp ReactorId.primary,
       Event.wakeUp (ReactorId.worker (createServiceHandler st sock).1),
       Event.newServiceHandler sock (ReactorId.worker (createServiceHandler st sock).1)] ∧
    (onAccept st sock).2.countP Event.isAccept = 1 ∧
    ∀ j s' r, (onAccept st sock).2.get? j = some (Event.newServiceHandler s' r) →
      ∃ j', j' < j ∧ (onAccept st sock).2.get? j' = some (Event.wakeUp r) := by
  refine ⟨rfl, rfl, ?_⟩
  intro j s' r hj
  match j with
  | 0 => simp [onAccept] at hj
  | 1 => simp [onAccept] at hj
  | 2 => simp [onAccept] at hj
  | 3 =>
    refine ⟨2, by omega, ?_⟩
    simp only [onAccept, List.get?] at hj ⊢
    obtain ⟨hs, hr⟩ := by simpa using hj
    simp [hr]
  | j + 4 => simp [onAccept, List.get?] at hj

/-- Witness for C1 at pool size 2 with three accepted sockets. -/
theorem roundRobin_distribution_witness :
    (acceptRun ⟨[⟨"w#0", []⟩, ⟨"w#1", []⟩], 0⟩ [10, 11, 12]).2
      = (List.range 3).map (fun k => k % 2) ∧
    ((acceptRun ⟨[⟨"w#0", []⟩, ⟨"w#1", []⟩], 0⟩ [10, 11, 12]).2.count 0 = 3 / 2 ∨
     (acceptRun ⟨[⟨"w#0", []⟩, ⟨"w#1", []⟩], 0⟩ [10, 11, 12]).2.count 0 = (3 + 2 - 1) / 2) :=
  ⟨(roundRobin_distribution "w" 2 (by decide) ⟨[⟨"w#0", []⟩, ⟨"w#1", []⟩], 0⟩ (by rfl)
      [10, 11, 12] (by decide)).1,
   (roundRobin_distribution "w" 2 (by decide) ⟨[⟨"w#0", []⟩, ⟨"w#1", []⟩], 0⟩ (by rfl)
      [10, 11, 12] (by decide)).2 0 (by decide)⟩

/-- Witness for C2: socket 5 is registered with reactor 0, which is reused. -/
theorem createServiceHandler_affinity_witness :
    (createServiceHandler ⟨[⟨"a", [5]⟩, ⟨"b", []⟩], 1⟩ 5).1 = 0 ∧
    (createServiceHandler ⟨[⟨"a", [5]⟩, ⟨"b", []⟩], 1⟩ 5).2 = ⟨[⟨"a", [5]⟩, ⟨"b", []⟩], 1⟩ ∧
    ∃ r, ([⟨"a", [5]⟩, ⟨"b", []⟩] : List ParallelReactor).get? 0 = some r ∧ r.has 5 = true :=
  createServiceHandler_affinity ⟨[⟨"a", [5]⟩, ⟨"b", []⟩], 1⟩ 5 0 (by decide)

/-- Witness for C3 at pool size 2, cursor 1, a socket with no affinity. -/
theorem cursor_invariant_witness :
    (∀ st0, newAcceptor "w" 2 = Except.ok st0 → st0.next = 0) ∧
    (createServiceHandler ⟨[⟨"w#0", []⟩, ⟨"w#1", []⟩], 1⟩ 7).2.next < 2 ∧
    (findReactor [⟨"w#0", []⟩, ⟨"w#1", []⟩] 7 = none →
      (createServiceHandler ⟨[⟨"w#0", []⟩, ⟨"w#1", []⟩], 1⟩ 7).2.next = (1 + 1) % 2) :=
  cursor_invariant "w" 2 (by decide) ⟨[⟨"w#0", []⟩, ⟨"w#1", []⟩], 1⟩ 7 (by decide) (by decide)

/-- Witness for C4: pool size 0 fails, pool size 2 creates two slots. -/
theorem init_pool_size_witness :
    init "w" 0 = Except.error PocoError.assertionViolation ∧
    ∃ rs, init "w" 2 = Except.ok rs ∧ rs.length = 2 :=
  ⟨(init_pool_size "w").1, (init_pool_size "w").2 2 (by decide)⟩

/-- Witness for C5: in the concrete trace the chosen worker's wake precedes the
handler construction at position 3. -/
theorem onAccept_wake_before_handler_witness :
    ∃ j', j' < 3 ∧ (onAccept ⟨[⟨"w#0", []⟩], 0⟩ 9).2.get? j'
      = some (Event.wakeUp (ReactorId.worker 0)) :=
  (onAccept_wake_before_handler ⟨[⟨"w#0", []⟩], 0⟩ 9).2.2 3 9 (ReactorId.worker 0) (by decide)

/-! ### Acceptor registration (`registerAcceptor` / `unregisterAcceptor`) -/

/-- Modelled from the spec: the `SocketReactor` collaborator (its implementation
is not under `src/`); §6 gives its contract `register(socket, readable_callback)`,
`unregister(socket)`, `has(socket)`. A reactor holds a list of
(socket, observer) handler registrations; the observer
`Observer(*this, &ParallelSocketAcceptor::onAccept)` is identified by a number
(equal observers compare equal). -/
structure SocketReactor where
  handlers : List (Socket × Nat)
deriving DecidableEq

/-- Modelled from the spec: `SocketReactor::hasEventHandler` is a membership
query on the registration table. -/
def SocketReactor.hasEventHandler (r : SocketReactor) (s : Socket) (o : Nat) : Bool :=
  r.handlers.contains (s, o)

/-- Modelled from the spec: `SocketReactor::addEventHandler` registers the
(socket, observer) pair. -/
def SocketReactor.addEventHandler (r : SocketReactor) (s : Socket) (o : Nat) : SocketReactor :=
  ⟨r.handlers ++ [(s, o)]⟩

/-- Modelled from the spec: `SocketReactor::removeEventHandler` removes the
(socket, observer) pair; removing an absent pair is a no-op, not an error. -/
def SocketReactor.removeEventHandler (r : SocketReactor) (s : Socket) (o : Nat) : SocketReactor :=
  ⟨r.handlers.filter (fun p => p != (s, o))⟩

/-- The world `registerAcceptor`/`unregisterAcceptor` act on: the external
reactors (by id), the acceptor's `_pReactor` pointer, its listening `_socket`
and the identity of its accept `Observer`. -/
structure RegWorld where
  reactors : List SocketReactor
  pReactor : Option Nat
  sock : Socket
  obs : Nat
deriving DecidableEq

/-- `ParallelSocketAcceptor::registerAcceptor`: set `_pReactor = &reactor`,
then add the accept handler unless `hasEventHandler` already reports it. -/
def registerAcceptor (w : RegWorld) (rid : Nat) : RegWorld :=
  match w.reactors.get? rid with
  | none => { w with pReactor := some rid }
  | some r =>
    if r.hasEventHandler w.sock w.obs then { w with pReactor := some rid }
    else { w with pReactor := some rid,
                  reactors := w.reactors.set rid (r.addEventHandler w.sock w.obs) }

/-- `ParallelSocketAcceptor::unregisterAcceptor`: if `_pReactor` is non-null,
remove the accept handler from it; otherwise do nothing. -/
def unregisterAcceptor (w : RegWorld) : RegWorld :=
  match w.pReactor with
  | none => w
  | some rid =>
    match w.reactors.get? rid with
    | none => w
    | some r => { w with reactors := w.reactors.set rid (r.removeEventHandler w.sock w.obs) }

theorem get?_set_self {α : Type} : ∀ (l : List α) (i : Nat) (a : α),
    i < l.length → (l.set i a).get? i = some a
  | [], i, _, h => by simp at h
  | _ :: _, 0, a, _ => rfl
  | x :: xs, i + 1, a, h =>
    get?_set_self xs i a (by simpa using h)

theorem set_get?_self {α : Type} : ∀ (l : List α) (i : Nat) (a : α),
    l.get? i = some a → l.set i a = l
  | [], i, a, h => by simp at h
  | x :: xs, 0, a, h => by
    have hx : x = a := by
      rw [List.get?_cons_zero] at h
      injection h
    rw [List.set_cons_zero, ← hx]
  | x :: xs, i + 1, a, h => by
    rw [List.get?_cons_succ] at h
    rw [List.set_cons_succ, set_get?_self xs i a h]

theorem hasEventHandler_add (r : SocketReactor) (s : Socket) (o : Nat) :
    (r.addEventHandler s o).hasEventHandler s o = true := by
  simp [SocketReactor.hasEventHandler, SocketReactor.addEventHandler]

/-- **C6**: registration is idempotent. Registering the acceptor a second time
with the same reactor changes nothing; registering when the handler is already
present leaves every reactor's registration table untouched (no second
handler); unregistering with a null `_pReactor`, or when the handler is not
registered, is a no-op (and never an error: both operations are total). -/
theorem registerAcceptor_idempotent (w : RegWorld) (rid : Nat) (r : SocketReactor)
    (hget : w.reactors.get? rid = some r) :
    registerAcceptor (registerAcceptor w rid) rid = registerAcceptor w rid ∧
    (r.hasEventHandler w.sock w.obs = true →
      (registerAcceptor w rid).reactors = w.reactors) ∧
    (w.pReactor = none → unregisterAcceptor w = w) ∧
    (w.pReactor = some rid → r.hasEventHandler w.sock w.obs = false →
      unregisterAcceptor w = w) := by
  have hlen : rid < w.reactors.length := by
    by_contra hc
    rw [List.get?_eq_none.mpr (by omega)] at hget
    cases hget
  have hget' : w.reactors[rid]? = some r := by
    rw [← List.get?_eq_getElem?]
    exact hget
  refine ⟨?_, ?_, ?_, ?_⟩
  · by_cases hhas : r.hasEventHandler w.sock w.obs
    · simp [registerAcceptor, hget', hhas]
    · have h1 : registerAcceptor w rid =
          { w with pReactor := some rid,
                   reactors := w.reactors.set rid (r.addEventHandler w.sock w.obs) } := by
        simp [registerAcceptor, hget', hhas]
      have hget2 : (w.reactors.set rid (r.addEventHandler w.sock w.obs))[rid]?
          = some (r.addEventHandler w.sock w.obs) := by
        rw [← List.get?_eq_getElem?]
        exact get?_set_self _ _ _ (by simpa)
      rw [h1]
      simp [registerAcceptor, hget2, hasEventHandler_add]
  · intro hhas
    simp [registerAcceptor, hget', hhas]
  · intro hp
    simp [unregisterAcceptor, hp]
  · intro hp hhas
    have hrm : r.removeEventHandler w.sock w.obs = r := by
      have hmem : (w.sock, w.obs) ∉ r.handlers := by
        simp [SocketReactor.hasEventHandler] at hhas
        simpa using hhas
      cases r with
      | mk hs =>
        simp only [SocketReactor.removeEventHandler, SocketReactor.mk.injEq]
        exact List.filter_eq_self.mpr (fun p hp' => by
          simp only [bne_iff_ne, ne_eq]
          intro hEq
          exact hmem (hEq ▸ hp'))
    have hset : w.reactors.set rid (r.removeEventHandler w.sock w.obs) = w.reactors := by
      rw [hrm]
      exact set_get?_self _ _ _ hget
    simp [unregisterAcceptor, hp, hget', hset]
    rw [← hp]

/-- Witness for C6: one reactor already holding the accept handler (3, 7). -/
theorem registerAcceptor_idempotent_witness :
    registerAcceptor (registerAcceptor ⟨[⟨[(3, 7)]⟩], some 0, 3, 7⟩ 0) 0
      = registerAcceptor ⟨[⟨[(3, 7)]⟩], some 0, 3, 7⟩ 0 ∧
    (registerAcceptor ⟨[⟨[(3, 7)]⟩], some 0, 3, 7⟩ 0).reactors
      = (⟨[⟨[(3, 7)]⟩], some 0, 3, 7⟩ : RegWorld).reactors :=
  ⟨(registerAcceptor_idempotent ⟨[⟨[(3, 7)]⟩], some 0, 3, 7⟩ 0 ⟨[(3, 7)]⟩ (by decide)).1,
   (registerAcceptor_idempotent ⟨[⟨[(3, 7)]⟩], some 0, 3, 7⟩ 0 ⟨[(3, 7)]⟩ (by decide)).2.1
     (by decide)⟩

/-! ### WebSocket handshake: SHA-1, Base64, `computeAccept` (modelled from the
spec; `WebSocket.cpp` with the bodies of `computeAccept` and `WebSocket::accept`
is not under `src/`, only their declarations in `WebSocket.h` are). -/

/-- Big-endian byte expansion of `v` to width `n`. -/
def beBytes : Nat → Nat → List Nat
  | 0, _ => []
  | n + 1, v => beBytes n (v / 256) ++ [v % 256]

/-- The bytes of an ASCII string (handshake keys and the GUID are ASCII). -/
def strBytes (s : String) : List Nat :=
  s.data.map Char.toNat

/-- 32-bit left rotation of a value `< 2 ^ 32`. -/
def rotl32 (n x : Nat) : Nat :=
  ((x <<< n) ||| (x >>> (32 - n))) % 4294967296

/-- Modelled from the spec: SHA-1 (FIPS 180) message padding, as required by
the accept-value derivation `base64(SHA-1(key ‖ GUID))` of §3/§4.2:
append `0x80`, zero-pad to 56 mod 64, append the 64-bit big-endian bit length. -/
def sha1pad (msg : List Nat) : List Nat :=
  msg ++ 128 :: (List.replicate ((119 - msg.length % 64) % 64) 0 ++ beBytes 8 (msg.length * 8))

/-- Split into 64-byte blocks (the fuel argument makes recursion structural). -/
def chunksAux : Nat → List Nat → List (List Nat)
  | 0, _ => []
  | _, [] => []
  | fuel + 1, l => l.take 64 :: chunksAux fuel (l.drop 64)

/-- 64-byte blocks of a padded message. -/
def chunks64 (l : List Nat) : List (List Nat) := chunksAux l.length l

/-- Big-endian 32-bit word from four bytes. -/
def beWord (b : List Nat) : Nat := b.foldl (fun a x => a * 256 + x) 0

/-- The sixteen 32-bit big-endian words of a 64-byte block. -/
def blockWords (b : List Nat) : List Nat :=
  (List.range 16).map (fun i => beWord ((b.drop (4 * i)).take 4))

/-- One step of the SHA-1 message-schedule extension. -/
def sha1ExtendStep (w : List Nat) : List Nat :=
  w ++ [rotl32 1 ((w.getD (w.length - 3) 0) ^^^ (w.getD (w.length - 8) 0) ^^^
    (w.getD (w.length - 14) 0) ^^^ (w.getD (w.length - 16) 0))]

/-- The 80-word SHA-1 message schedule of a block. -/
def sha1W (block : List Nat) : List Nat :=
  (List.range 64).foldl (fun w _ => sha1ExtendStep w) (blockWords block)

/-- The SHA-1 round function. -/
def sha1f (t b c d : Nat) : Nat :=
  if t < 20 then (b &&& c) ||| ((b ^^^ 4294967295) &&& d)
  else if t < 40 then b ^^^ c ^^^ d
  else if t < 60 then (b &&& c) ||| (b &&& d) ||| (c &&& d)
  else b ^^^ c ^^^ d

/-- The SHA-1 round constants. -/
def sha1K (t : Nat) : Nat :=
  if t < 20 then 1518500249
  else if t < 40 then 1859775393
  else if t < 60 then 2400959708
  else 3395469782

/-- SHA-1 compression of one 64-byte block into the running state. -/
def sha1Compress (h : List Nat) (block : List Nat) : List Nat :=
  let w := sha1W block
  let s := (List.range 80).foldl
    (fun (x : Nat × Nat × Nat × Nat × Nat) t =>
      ((rotl32 5 x.1 + sha1f t x.2.1 x.2.2.1 x.2.2.2.1 + x.2.2.2.2 + sha1K t
          + w.getD t 0) % 4294967296,
        x.1, rotl32 30 x.2.1, x.2.2.1, x.2.2.2.1))
    (h.getD 0 0, h.getD 1 0, h.getD 2 0, h.getD 3 0, h.getD 4 0)
  [(h.getD 0 0 + s.1) % 4294967296, (h.getD 1 0 + s.2.1) % 4294967296,
   (h.getD 2 0 + s.2.2.1) % 4294967296, (h.getD 3 0 + s.2.2.2.1) % 4294967296,
   (h.getD 4 0 + s.2.2.2.2) % 4294967296]

/-- SHA-1 of a byte sequence, as a 20-byte digest. -/
def sha1 (msg : List Nat) : List Nat :=
  ((chunks64 (sha1pad msg)).foldl sha1Compress
    [1732584193, 4023233417, 2562383102, 271733878, 3285377520]).foldr
    (fun h acc => beBytes 4 h ++ acc) []

/-- The Base64 alphabet. -/
def base64Alphabet : List Char :=
  "ABCDEFGHIJKLMNOPQRSTUVWXYZabcdefghijklmnopqrstuvwxyz0123456789+/".data

/-- The Base64 digit for a 6-bit value. -/
def base64Char (n : Nat) : Char := base64Alphabet.getD n 'A'

/-- Base64 encoding with `=` padding. -/
def base64Encode : List Nat → List Char
  | [] => []
  | [a] => [base64Char (a / 4), base64Char (a % 4 * 16), '=', '=']
  | [a, b] => [base64Char (a / 4), base64Char (a % 4 * 16 + b / 16), base64Char (b % 16 * 4), '=']
  | a :: b :: c :: rest =>
    base64Char (a / 4) :: base64Char (a % 4 * 16 + b / 16) ::
    base64Char (b % 16 * 4 + c / 64) :: base64Char (c % 64) :: base64Encode rest

/-- Index of a character in the Base64 alphabet. -/
def b64Index (c : Char) : Option Nat :=
  base64Alphabet.findIdx? (· == c)

/-- Base64 decoding (strict: `=` padding only at the end). -/
def base64Decode : List Char → Option (List Nat)
  | [] => some []
  | a :: b :: c :: d :: rest => do
    let va ← b64Index a
    let vb ← b64Index b
    if c = '=' then
      if d = '=' ∧ rest = [] then
        if vb % 16 = 0 then some [va * 4 + vb / 16] else none
      else none
    else do
      let vc ← b64Index c
      if d = '=' then
        if rest = [] ∧ vc % 4 = 0 then
          some [va * 4 + vb / 16, vb % 16 * 16 + vc / 4]
        else none
      else do
        let vd ← b64Index d
        let tail ← base64Decode rest
        some ((va * 4 + vb / 16) :: (vb % 16 * 16 + vc / 4) :: (vc % 4 * 64 + vd) :: tail)
  | _ => none

/-- Modelled from the spec: the fixed 36-byte protocol GUID of the accept-value
derivation (declared as `WebSocket::WEBSOCKET_GUID` in `WebSocket.h`; its value,
set in `WebSocket.cpp`, is the RFC 6455 GUID pinned down by the spec's worked
example). -/
def WEBSOCKET_GUID : String := "258EAFA5-E914-47DA-95CA-C5AB0DC85B11"

/-- The supported protocol version, `WebSocket::WEBSOCKET_VERSION`. -/
def WEBSOCKET_VERSION : String := "13"

/-- Modelled from the spec: `WebSocket::computeAccept(key)` =
`base64(SHA-1(key ‖ WEBSOCKET_GUID))` (§3 handshake key material). -/
def computeAccept (key : String) : String :=
  ⟨base64Encode (sha1 (strBytes (key ++ WEBSOCKET_GUID)))⟩

/-- The WebSocket error kinds of `WebSocket::ErrorCodes` that the modelled
paths can produce. -/
inductive WSError
  | noHandshake
  | handshakeNoVersion
  | handshakeUnsupportedVersion
  | handshakeNoKey
  | handshakeAccept
  | unauthorized
  | payloadTooBig
  | incompleteFrame
  | protocolError
deriving DecidableEq

/-- The handshake-relevant content of an HTTP Upgrade request: whether the
`Upgrade: websocket` and `Connection: Upgrade` tokens are present, and the
`Sec-WebSocket-Version` and `Sec-WebSocket-Key` header values, if any. -/
structure HSRequest where
  hasUpgradeWebSocket : Bool
  hasConnectionUpgrade : Bool
  version : Option String
  key : Option String
deriving DecidableEq

/-- The handshake-relevant content of the HTTP response: the status code and
the `Sec-WebSocket-Accept` header value. -/
structure HSResponse where
  status : Nat
  secWebSocketAccept : String
deriving DecidableEq

/-- Modelled from the spec: the server-side handshake of §4.2
(`WebSocket::accept`, whose body in `WebSocket.cpp` is not under `src/`):
check the Upgrade/Connection tokens, the supported version 13, and a
base64-encoded 16-byte key; on success answer `101 Switching Protocols`
carrying `computeAccept key`. -/
def acceptHandshake (req : HSRequest) : Except WSError HSResponse :=
  if !(req.hasUpgradeWebSocket && req.hasConnectionUpgrade) then
    .error .noHandshake
  else
    match req.version with
    | none => .error .handshakeNoVersion
    | some v =>
      if v ≠ WEBSOCKET_VERSION then .error .handshakeUnsupportedVersion
      else
        match req.key with
        | none => .error .handshakeNoKey
        | some k =>
          match base64Decode k.data with
          | none => .error .handshakeNoKey
          | some bytes =>
            if bytes.length ≠ 16 then .error .handshakeNoKey
            else .ok ⟨101, computeAccept k⟩

/-- The RFC 6455 worked-example upgrade request. -/
def sampleUpgradeRequest : HSRequest :=
  ⟨true, true, some "13", some "dGhlIHNhbXBsZSBub25jZQ=="⟩

set_option maxRecDepth 100000 in
/-- **C7**: `computeAccept` maps the RFC 6455 sample client key to the worked
example accept value `"s3pPLMBiTxaQ9kYGzzhZRbK+xOo="` (base64 of the SHA-1 of
the key concatenated with the 36-byte protocol GUID), and the server handshake
answers the corresponding valid Upgrade request with status `101` carrying
exactly that value. -/
theorem computeAccept_rfc6455 :
    computeAccept "dGhlIHNhbXBsZSBub25jZQ==" = "s3pPLMBiTxaQ9kYGzzhZRbK+xOo=" ∧
    acceptHandshake sampleUpgradeRequest
      = Except.ok ⟨101, "s3pPLMBiTxaQ9kYGzzhZRbK+xOo="⟩ := by
  constructor
  · decide
  · rfl

/-! ### WebSocket frame codec: non-blocking send (C8) -/

/-- The wire-format frame header of §6: byte 0 carries FIN/RSV/opcode (the
`flags` argument of `sendFrame`), byte 1 the mask bit and the 7-bit length,
with a 16- or 64-bit big-endian extension for larger payloads. Server role:
the mask bit is 0 and no masking key is emitted. -/
def encodeHeader (flags : Nat) (len : Nat) : List Nat :=
  if len < 126 then [flags % 256, len]
  else if len < 65536 then [flags % 256, 126] ++ beBytes 2 len
  else [flags % 256, 127] ++ beBytes 8 len

/-- One logical frame: header followed by payload. -/
def wsFrame (payload : List Nat) (flags : Nat) : List Nat :=
  encodeHeader flags payload.length ++ payload

/-- The non-blocking send progress retained between retries: number of bytes
of the current frame already handed to the transport (`0` = idle). -/
structure SendState where
  progress : Nat
deriving DecidableEq

/-- Modelled from the spec: non-blocking `sendFrame` (§4.3 send path; the body,
in `WebSocketImpl.cpp`, is not under `src/`). `cap` is how many bytes the
transport accepts on this call. The call transmits the next untransferred
bytes of the logical frame determined by the (identical across retries)
arguments; if the frame is then complete it returns the payload length and
resets the progress to idle, otherwise it retains the new progress and returns
the would-block sentinel `-1`. The third component is the chunk handed to the
transport by this call. -/
def sendFrameNB (st : SendState) (payload : List Nat) (flags : Nat) (cap : Nat) :
    Int × SendState × List Nat :=
  let frame := wsFrame payload flags
  let sent := (frame.drop st.progress).take cap
  let p' := st.progress + sent.length
  if p' = frame.length then ((payload.length : Int), ⟨0⟩, sent)
  else (-1, ⟨p'⟩, sent)

/-- `n` calls of `sendFrameNB` with identical arguments against a transport
that accepts one byte per call, collecting each call's return value and chunk. -/
def sendLoop (payload : List Nat) (flags : Nat) :
    Nat → SendState → List (Int × List Nat) × SendState
  | 0, st => ([], st)
  | n + 1, st =>
    let res := sendFrameNB st payload flags 1
    let rest := sendLoop payload flags n res.2.1
    ((res.1, res.2.2) :: rest.1, rest.2)

theorem sendFrameNB_step (payload : List Nat) (flags : Nat) (p x : Nat) (xs : List Nat)
    (hxxs : (wsFrame payload flags).drop p = x :: xs) :
    sendFrameNB ⟨p⟩ payload flags 1 =
      (if p + 1 = (wsFrame payload flags).length then ((payload.length : Int), ⟨0⟩, [x])
       else (-1, ⟨p + 1⟩, [x])) := by
  simp only [sendFrameNB, hxxs, List.take, List.length_cons, List.length_nil]

theorem sendLoop_completes (payload : List Nat) (flags : Nat) :
    ∀ (n p : Nat), 1 ≤ n → p + n = (wsFrame payload flags).length →
    ∃ outs, sendLoop payload flags n ⟨p⟩ = (outs, ⟨0⟩) ∧
      (outs.map Prod.snd).flatten = (wsFrame payload flags).drop p ∧
      outs.length = n ∧
      (∀ k, k + 1 < n → (outs.getD k ((0 : Int), [])).1 = -1) ∧
      (outs.getD (n - 1) ((0 : Int), [])).1 = (payload.length : Int) := by
  intro n
  induction n with
  | zero => intro p hn; omega
  | succ n ih =>
    intro p _ hp
    have hdlen : ((wsFrame payload flags).drop p).length = n + 1 := by
      rw [List.length_drop]
      omega
    obtain ⟨x, xs, hxxs⟩ : ∃ x xs, (wsFrame payload flags).drop p = x :: xs := by
      cases hC : (wsFrame payload flags).drop p with
      | nil => rw [hC] at hdlen; simp at hdlen
      | cons y ys => exact ⟨y, ys, rfl⟩
    have hstep := sendFrameNB_step payload flags p x xs hxxs
    by_cases hlast : n = 0
    · subst hlast
      have hdone : p + 1 = (wsFrame payload flags).length := by omega
      rw [if_pos hdone] at hstep
      have hxs : xs = [] := by
        rw [hxxs] at hdlen
        simpa using hdlen
      refine ⟨[((payload.length : Int), [x])], ?_, ?_, rfl, ?_, rfl⟩
      · simp only [sendLoop, hstep]
      · simp [hxxs, hxs]
      · intro k hk
        omega
    · have hnotdone : p + 1 ≠ (wsFrame payload flags).length := by omega
      rw [if_neg hnotdone] at hstep
      obtain ⟨outs, hloop, hjoin, hlen, hmid, hfin⟩ :=
        ih (p + 1) (by omega) (by omega)
      have hdropsucc : (wsFrame payload flags).drop (p + 1) = xs := by
        have := List.drop_drop 1 p (wsFrame payload flags)
        rw [hxxs] at this
        simpa [Nat.add_comm] using this.symm
      refine ⟨((-1 : Int), [x]) :: outs, ?_, ?_, ?_, ?_, ?_⟩
      · simp only [sendLoop, hstep, hloop]
      · simp only [List.map_cons]
        have hcons : (([x] : List Nat) :: outs.map Prod.snd).flatten
            = [x] ++ (outs.map Prod.snd).flatten := rfl
        rw [hcons, hjoin, hdropsucc, hxxs]
        rfl
      · simp [hlen]
      · intro k hk
        cases k with
        | zero => simp
        | succ k' =>
          rw [List.getD_cons_succ]
          exact hmid k' (by omega)
      · have hn1 : n + 1 - 1 = (n - 1) + 1 := by omega
        rw [hn1, List.getD_cons_succ]
        exact hfin

/-- **C8**: a non-blocking `sendFrame` retried with identical arguments against
a transport that accepts one byte per call transmits the logical frame exactly
once: every call before completion returns the would-block sentinel `-1` and
retains the progress, the concatenation of the transmitted chunks is exactly
the frame (header plus payload, each byte once, cumulative length = header
length + payload length), and the completing call returns the payload length
with the progress state reset to idle. -/
theorem sendFrame_nonblocking_resume (payload : List Nat) (flags : Nat) :
    (sendLoop payload flags (wsFrame payload flags).length ⟨0⟩).2 = ⟨0⟩ ∧
    ((sendLoop payload flags (wsFrame payload flags).length ⟨0⟩).1.map Prod.snd).flatten
      = wsFrame payload flags ∧
    (sendLoop payload flags (wsFrame payload flags).length ⟨0⟩).1.length
      = (wsFrame payload flags).length ∧
    (∀ k, k + 1 < (wsFrame payload flags).length →
      ((sendLoop payload flags (wsFrame payload flags).length ⟨0⟩).1.getD k
        ((0 : Int), [])).1 = -1) ∧
    ((sendLoop payload flags (wsFrame payload flags).length ⟨0⟩).1.getD
        ((wsFrame payload flags).length - 1) ((0 : Int), [])).1
      = (payload.length : Int) := by
  have hpos : 1 ≤ (wsFrame payload flags).length := by
    unfold wsFrame encodeHeader
    split_ifs <;> simp
  obtain ⟨outs, hloop, hjoin, hlen, hmid, hfin⟩ :=
    sendLoop_completes payload flags (wsFrame payload flags).length 0 hpos (by omega)
  rw [hloop]
  refine ⟨rfl, ?_, hlen, hmid, hfin⟩
  simpa using hjoin

/-- Witness for C8 at payload `[1, 2, 3]` with `FRAME_TEXT = 0x81` flags
(frame `[129, 3, 1, 2, 3]`, five one-byte calls). -/
theorem sendFrame_nonblocking_resume_witness :
    ((sendLoop [1, 2, 3] 129 (wsFrame [1, 2, 3] 129).length ⟨0⟩).1.map Prod.snd).flatten
      = wsFrame [1, 2, 3] 129 ∧
    ((sendLoop [1, 2, 3] 129 (wsFrame [1, 2, 3] 129).length ⟨0⟩).1.getD 0
      ((0 : Int), [])).1 = -1 ∧
    ((sendLoop [1, 2, 3] 129 (wsFrame [1, 2, 3] 129).length ⟨0⟩).1.getD
      ((wsFrame [1, 2, 3] 129).length - 1) ((0 : Int), [])).1 = ((3 : Nat) : Int) :=
  ⟨(sendFrame_nonblocking_resume [1, 2, 3] 129).2.1,
   (sendFrame_nonblocking_resume [1, 2, 3] 129).2.2.2.1 0 (by decide),
   (sendFrame_nonblocking_resume [1, 2, 3] 129).2.2.2.2⟩

/-! ### WebSocket frame codec: receive (C9) -/

/-- The RFC 6455 opcodes of §3 Frame Header: continuation, text, binary,
close, ping, pong; every other value is undefined and a protocol error. -/
def validOpcode (op : Nat) : Bool :=
  op = 0 || op = 1 || op = 2 || op = 8 || op = 9 || op = 10

/-- XOR (un)masking with the 4-byte key cycled (§6 wire format). -/
def applyMask (key payload : List Nat) : List Nat :=
  (List.range payload.length).map (fun i => payload.getD i 0 ^^^ key.getD (i % 4) 0)

/-- Modelled from the spec: `receiveFrame` (§4.3 receive path; the body, in
`WebSocketImpl.cpp`, is not under `src/`). Parses one frame from the input
bytes: set reserved bits, an undefined opcode, or a control frame with `FIN=0`
or payload over 125 are protocol errors; a payload over `maxPayloadSize` is
payload-too-big; a truncated frame is incomplete. Otherwise returns the
payload byte count, the first header byte (FIN/RSV/opcode — the `flags`
output of `receiveFrame`) and the unmasked payload. -/
def receiveFrame (maxPayloadSize : Nat) (input : List Nat) :
    Except WSError (Int × Nat × List Nat) :=
  match input with
  | b0 :: b1 :: rest =>
    if b0 &&& 112 ≠ 0 then .error .protocolError
    else if validOpcode (b0 &&& 15) = false then .error .protocolError
    else
      let len7 := b1 &&& 127
      let lenrest : Option (Nat × List Nat) :=
        if len7 < 126 then some (len7, rest)
        else if len7 = 126 then
          match rest with
          | a :: b :: r => some (a * 256 + b, r)
          | _ => none
        else
          match rest with
          | a :: b :: c :: d :: e :: f :: g :: h :: r =>
            some (beWord [a, b, c, d] * 4294967296 + beWord [e, f, g, h], r)
          | _ => none
      match lenrest with
      | none => .error .incompleteFrame
      | some (plen, r1) =>
        if (b0 &&& 15 = 8 ∨ b0 &&& 15 = 9 ∨ b0 &&& 15 = 10) ∧
            (125 < plen ∨ b0 &&& 128 = 0) then .error .protocolError
        else if maxPayloadSize < plen then .error .payloadTooBig
        else if b1 &&& 128 ≠ 0 then
          match r1 with
          | k0 :: k1 :: k2 :: k3 :: r2 =>
            if r2.length < plen then .error .incompleteFrame
            else .ok ((plen : Int), b0, applyMask [k0, k1, k2, k3] (r2.take plen))
          | _ => .error .incompleteFrame
        else
          if r1.length < plen then .error .incompleteFrame
          else .ok ((plen : Int), b0, r1.take plen)
  | _ => .error .incompleteFrame

/-- **C9**: `receiveFrame` distinguishes the two zero-length cases: a frame
with zero-length payload and all flags zero (bytes `[0x00, 0x00]`) yields
return value `0` with flags `0` (orderly peer shutdown), while a zero-length
empty-ping frame (bytes `[0x89, 0x00]`) yields return value `0` with the
non-zero flags `0x89` stored in the flags output. (`0x89 = 137 ≠ 0`; the
payload-size limit is the `std::numeric_limits<int>::max()` default.) -/
theorem receiveFrame_zero_length_cases :
    receiveFrame 2147483647 [0, 0] = .ok (0, 0, []) ∧
    receiveFrame 2147483647 [137, 0] = .ok (0, 137, []) ∧ (137 : Nat) ≠ 0 := by
  refine ⟨rfl, rfl, by decide⟩

/-! ### WebSocket construction from a generic socket (C10) -/

/-- The kinds of `SocketImpl` relevant to `WebSocket`'s checked conversions. -/
inductive SocketImplKind
  | streamSocketImpl
  | serverSocketImpl
  | webSocketImpl
deriving DecidableEq

/-- A generic socket: a handle to some socket implementation. -/
structure GenSocket where
  impl : SocketImplKind
deriving DecidableEq

/-- A socket is a WebSocket precisely when its implementation is a
`WebSocketImpl`. -/
def GenSocket.isWebSocket (s : GenSocket) : Bool :=
  s.impl = SocketImplKind.webSocketImpl

/-- The exception thrown by the checked conversions. -/
inductive PocoExn
  | invalidArgumentException
deriving DecidableEq

/-- Modelled from the spec: `WebSocket::WebSocket(const Socket&)` (body in
`WebSocket.cpp`, not under `src/`; `WebSocket.h` documents that the source
socket must be a WebSocket — i.e. carry a `WebSocketImpl` — otherwise
`Poco::InvalidArgumentException` is thrown). -/
def webSocketFromSocket (s : GenSocket) : Except PocoExn GenSocket :=
  if s.impl = SocketImplKind.webSocketImpl then .ok s
  else .error .invalidArgumentException

/-- Modelled from the spec: `WebSocket::operator = (const Socket&)` performs
the same check as the converting constructor; on success the target takes over
the source's implementation. -/
def webSocketAssign (_target : GenSocket) (s : GenSocket) : Except PocoExn GenSocket :=
  if s.impl = SocketImplKind.webSocketImpl then .ok s
  else .error .invalidArgumentException

/-- **C10**: constructing a `WebSocket` from a generic `Socket`, or assigning
a generic `Socket` to a `WebSocket`, throws `Poco::InvalidArgumentException`
whenever the source's implementation is not a `WebSocketImpl`, and the
conversion succeeds exactly when the source socket is a WebSocket. -/
theorem webSocket_conversion_checked (t s : GenSocket) :
    (s.impl ≠ SocketImplKind.webSocketImpl →
      webSocketFromSocket s = .error .invalidArgumentException ∧
      webSocketAssign t s = .error .invalidArgumentException) ∧
    (webSocketFromSocket s = .ok s ↔ s.isWebSocket = true) ∧
    (webSocketAssign t s = .ok s ↔ s.isWebSocket = true) := by
  by_cases h : s.impl = SocketImplKind.webSocketImpl
  · refine ⟨fun hc => absurd h hc, ?_, ?_⟩ <;>
      simp [webSocketFromSocket, webSocketAssign, GenSocket.isWebSocket, h]
  · refine ⟨fun _ => ?_, ?_, ?_⟩ <;>
      simp [webSocketFromSocket, webSocketAssign, GenSocket.isWebSocket, h]

/-- Witness for C10: a plain stream socket is rejected, a WebSocket accepted. -/
theorem webSocket_conversion_checked_witness :
    webSocketFromSocket ⟨SocketImplKind.streamSocketImpl⟩
      = Except.error PocoExn.invalidArgumentException ∧
    webSocketFromSocket ⟨SocketImplKind.webSocketImpl⟩
      = Except.ok ⟨SocketImplKind.webSocketImpl⟩ :=
  ⟨((webSocket_conversion_checked ⟨SocketImplKind.webSocketImpl⟩
      ⟨SocketImplKind.streamSocketImpl⟩).1 (by decide)).1,
   (webSocket_conversion_checked ⟨SocketImplKind.webSocketImpl⟩
      ⟨SocketImplKind.webSocketImpl⟩).2.1.mpr (by decide)⟩
